import Mathlib

/-!
Verification of the flaredantic orchestration library.

The repository's public surface is `src/flaredantic/__init__.py`, which
re-exports `FlareTunnel` and `FlareConfig` from `flaredantic.tunnel.cloudflare`,
the exception types from `flaredantic.core.exceptions`, defines the
backward-compatibility alias `TunnelConfig = FlareConfig`, and the export
list `__all__`.  The implementation modules (`tunnel/cloudflare.py`,
`core/exceptions.py`) are not part of the given sources, so the components
they define (BinaryProvisioner, ProcessSupervisor, ReadinessDetector,
TunnelHandle) are modelled from the specification's words, as stated in
each doc comment below.  The export list and the alias are translated
directly from `__init__.py`.
-/

namespace Flaredantic

/-- Modelled from the spec: the error taxonomy of section 7 together with the
three publicly exported exception classes (`core/exceptions.py` is not among
the given sources).  `cloudflaredError` is the base; `downloadError` and
`tunnelError` are its direct subclasses, and the seven fine-grained errors
hang under them (provisioning errors under `downloadError`, runtime errors
under `tunnelError`). -/
inductive ErrClass where
  | cloudflaredError
  | downloadError
  | tunnelError
  | unsupportedPlatform
  | downloadFailure
  | processSpawnError
  | unexpectedExit
  | readinessTimeout
  | prematureExit
  | invalidConfig
  deriving DecidableEq, Repr

/-- Modelled from the spec: the direct superclass of each error class;
`none` for the base class. -/
def errParent : ErrClass → Option ErrClass
  | .cloudflaredError => none
  | .downloadError => some .cloudflaredError
  | .tunnelError => some .cloudflaredError
  | .unsupportedPlatform => some .downloadError
  | .downloadFailure => some .downloadError
  | .processSpawnError => some .tunnelError
  | .unexpectedExit => some .tunnelError
  | .readinessTimeout => some .tunnelError
  | .prematureExit => some .tunnelError
  | .invalidConfig => some .tunnelError

/-- Reflexive-transitive subclass relation generated by `errParent`. -/
inductive SubclassOf : ErrClass → ErrClass → Prop
  | refl (e : ErrClass) : SubclassOf e e
  | step {e p b : ErrClass} : errParent e = some p → SubclassOf p b → SubclassOf e b

/-- Modelled from the spec: the immutable configuration value of section 3
(`tunnel/cloudflare.py` is not among the given sources).  Fields: local
port, optional bind address, optional binary path override, optional
startup timeout, verbosity flag. -/
structure FlareConfig where
  port : Nat
  bindAddr : Option String := none
  binaryPath : Option String := none
  timeout : Option Nat := none
  verbose : Bool := false
  deriving DecidableEq, Repr

/-- Backward-compatibility alias, translated from
`src/flaredantic/__init__.py` line 10: `TunnelConfig = FlareConfig`. -/
def TunnelConfig := FlareConfig

/-- Modelled from the spec: constructing a `FlareConfig` validates the port
(an integer in 1–65535); an out-of-range port fails with `invalidConfig`. -/
def mkFlareConfig (port : Nat) : Except ErrClass FlareConfig :=
  if 1 ≤ port ∧ port ≤ 65535 then
    .ok { port := port }
  else
    .error .invalidConfig

/-- The export list, translated from `src/flaredantic/__init__.py`
lines 12–25 (`__all__`). -/
def allExports : List String :=
  ["FlareTunnel", "FlareConfig", "TunnelConfig",
   "CloudflaredError", "DownloadError", "TunnelError",
   "__version__"]

/-- Split a line into space-separated tokens; `acc` holds the characters of
the token currently being read, most recent first. -/
def splitTokens (acc : List Char) : List Char → List (List Char)
  | [] => [acc.reverse]
  | c :: cs =>
    if c = ' ' then acc.reverse :: splitTokens [] cs
    else splitTokens (c :: acc) cs

/-- Characters of the URL scheme the recognition pattern requires. -/
def httpsChars : List Char := "https://".data

/-- Characters of the tunnel provider's domain suffix. -/
def domainChars : List Char := ".trycloudflare.com".data

/-- Modelled from the spec: a whitespace-separated token is the tunnel
provider's URL when it uses the https scheme on the provider's domain. -/
def isTunnelURL (t : List Char) : Bool :=
  httpsChars.isPrefixOf t && domainChars.reverse.isPrefixOf t.reverse

/-- Modelled from the spec: apply the fixed recognition pattern to one line
of output, returning the contained provider URL when the line matches. -/
def extractURL (line : String) : Option String :=
  ((splitTokens [] line.data).find? isTunnelURL).map (fun t => ⟨t⟩)

/-- Outcome of the readiness detector on a closed (finite) output stream. -/
inductive WatchResult where
  | url (u : String)
  | prematureExit (captured : List String)
  deriving DecidableEq, Repr

/-- Modelled from the spec: `ReadinessDetector.watch` reads the stream line
by line, returns the first URL matched, and when the stream closes before
any match signals `PrematureExit` carrying the captured output.  The stream
is modelled as the finite list of lines produced before closure; `captured`
accumulates the lines already read (most recent first).  The timeout path
concerns a still-open silent stream and is outside this model. -/
def watch (captured : List String) : List String → WatchResult
  | [] => .prematureExit captured.reverse
  | l :: ls =>
    match extractURL l with
    | some u => .url u
    | none => watch (l :: captured) ls

/-- Number of read-loop iterations `watch` performs on a given stream:
one per line consumed, plus the final read that observes closure. -/
def watchSteps : List String → Nat
  | [] => 1
  | l :: ls =>
    match extractURL l with
    | some _ => 1
    | none => 1 + watchSteps ls

/-- Lifecycle state of a supervised subprocess (section 3 of the spec). -/
inductive ProcState where
  | notStarted
  | running
  | stopped
  | failed
  deriving DecidableEq, Repr

/-- Modelled from the spec: `SupervisedProcess` wraps one OS subprocess —
a process identifier and its current lifecycle state
(`ProcessSupervisor` lives in a module not among the given sources). -/
structure SupervisedProcess where
  pid : Nat
  state : ProcState
  deriving DecidableEq, Repr

/-- Modelled from the spec: `ProcessSupervisor.terminate` stops a running
process and is idempotent — on an already-stopped (or never-started)
process it is a no-op, not an error, so it is a total function. -/
def terminate (p : SupervisedProcess) : SupervisedProcess :=
  if p.state = ProcState.running then { p with state := ProcState.stopped } else p

/-- Lifecycle phase of a tunnel handle (section 5 of the spec):
`NotStarted → starting → Running | Failed`, and `stopped` after `stop()`. -/
inductive Phase where
  | notStarted
  | starting
  | running
  | stopped
  | failed
  deriving DecidableEq, Repr

/-- Modelled from the spec: observable state of a `TunnelHandle` — its
lifecycle phase, whether its subprocess is alive, the discovered public
URL (absent until readiness matched), how many times the readiness signal
has matched, and whether the process ever reached `Running`. -/
structure HandleState where
  phase : Phase
  procAlive : Bool
  url : Option String
  matchCount : Nat
  everRan : Bool
  deriving DecidableEq, Repr

/-- Modelled from the spec: `TunnelHandle.stop` terminates the subprocess
and leaves the handle in the terminal `stopped` phase; it is total (safe
to call in any state, including when `start` never succeeded). -/
def stop (s : HandleState) : HandleState :=
  { s with phase := Phase.stopped, procAlive := false }

/-- The handle state before any operation. -/
def initHandle : HandleState :=
  { phase := Phase.notStarted, procAlive := false, url := none,
    matchCount := 0, everRan := false }

/-- Modelled from the spec: the operations a `TunnelHandle` admits, as a
transition relation.  `start` decomposes into entering `starting`, then
either a successful spawn (process `Running`) or a failure; the readiness
signal may match at most once while running; the process may exit
unexpectedly; `stop` is allowed in every state. -/
inductive HStep : HandleState → HandleState → Prop
  | beginStart (s : HandleState) : s.phase = Phase.notStarted →
      HStep s { s with phase := Phase.starting }
  | spawnOk (s : HandleState) : s.phase = Phase.starting →
      HStep s { s with phase := Phase.running, procAlive := true, everRan := true }
  | spawnFail (s : HandleState) : s.phase = Phase.starting →
      HStep s { s with phase := Phase.failed, procAlive := false }
  | matchSignal (s : HandleState) (u : String) :
      s.phase = Phase.running → s.matchCount = 0 →
      HStep s { s with url := some u, matchCount := s.matchCount + 1 }
  | procExit (s : HandleState) : s.phase = Phase.running →
      HStep s { s with phase := Phase.failed, procAlive := false }
  | doStop (s : HandleState) : HStep s (stop s)

/-- A handle state reachable from the fresh handle by the spec's operations. -/
inductive HReachable : HandleState → Prop
  | start : HReachable initHandle
  | next {s t : HandleState} : HReachable s → HStep s t → HReachable t

/-- A handle state in which the readiness signal has matched: reached by
fresh handle → starting → running → match, used as a concrete example. -/
def matchedState : HandleState :=
  { phase := Phase.running, procAlive := true,
    url := some "https://demo.trycloudflare.com", matchCount := 1,
    everRan := true }

/-- Auxiliary invariant of handle states, strong enough to be inductive:
a readable URL implies the signal matched exactly once; a running process
has been running; a match implies the process ran; at most one match. -/
def HInv (s : HandleState) : Prop :=
  (s.url ≠ none → s.matchCount = 1) ∧
  (s.phase = Phase.running → s.everRan = true) ∧
  (s.matchCount = 1 → s.everRan = true) ∧
  s.matchCount ≤ 1

/-- Modelled from the spec: scoped acquisition runs a body against the
handle and always calls `stop` on exit — whether the body returned
normally (`Except.ok`) or raised (`Except.error`). -/
def scopedRun {ε α : Type} (s : HandleState)
    (body : HandleState → Except ε α × HandleState) :
    Except ε α × HandleState :=
  let r := body s
  (r.1, stop r.2)

/-- Modelled from the spec: a provisioned binary — platform tag and
resolved filesystem path. -/
structure BinaryDescriptor where
  platform : String
  path : String
  deriving DecidableEq, Repr

/-- Modelled from the spec: provisioner-visible world state — the cached
binary (if any) and a count of network downloads performed. -/
structure ProvState where
  cache : Option BinaryDescriptor
  downloads : Nat
  deriving DecidableEq, Repr

/-- Modelled from the spec: inputs to `BinaryProvisioner.ensure` — the host
platform tag and the optional explicit binary path override. -/
structure ProvConfig where
  platform : String
  overridePath : Option String
  deriving DecidableEq, Repr

/-- Cache location of the downloaded binary for a platform. -/
def cachePath (platform : String) : String :=
  "cache/cloudflared-" ++ platform

/-- Modelled from the spec: `BinaryProvisioner.ensure` — if an override path
is given, return it with no network access; else if the cache holds a
binary for the current platform, reuse it; else download (one network
I/O), place the binary in the cache, and return it. -/
def ensure (cfg : ProvConfig) (s : ProvState) : BinaryDescriptor × ProvState :=
  match cfg.overridePath with
  | some p => ({ platform := cfg.platform, path := p }, s)
  | none =>
    match s.cache with
    | some d =>
      if d.platform = cfg.platform then (d, s)
      else
        ({ platform := cfg.platform, path := cachePath cfg.platform },
         { cache := some { platform := cfg.platform, path := cachePath cfg.platform },
           downloads := s.downloads + 1 })
    | none =>
      ({ platform := cfg.platform, path := cachePath cfg.platform },
       { cache := some { platform := cfg.platform, path := cachePath cfg.platform },
         downloads := s.downloads + 1 })

/-- C9: `TunnelConfig` is a backward-compatibility alias bound to the very
same type as `FlareConfig`: the two names denote one and the same type, so
every program using one behaves exactly as with the other. -/
theorem tunnelConfig_eq_flareConfig : TunnelConfig = FlareConfig := rfl

/-- C10: the export list `__all__` consists of exactly the seven names
`FlareTunnel`, `FlareConfig`, `TunnelConfig`, `CloudflaredError`,
`DownloadError`, `TunnelError`, `__version__`, and none of the fine-grained
error names is exported at the public surface. -/
theorem allExports_exact :
    allExports = ["FlareTunnel", "FlareConfig", "TunnelConfig",
      "CloudflaredError", "DownloadError", "TunnelError", "__version__"] ∧
    "UnsupportedPlatform" ∉ allExports ∧
    "ProcessSpawnError" ∉ allExports ∧
    "ReadinessTimeout" ∉ allExports ∧
    "PrematureExit" ∉ allExports ∧
    "InvalidConfig" ∉ allExports := by
  refine ⟨rfl, ?_, ?_, ?_, ?_, ?_⟩ <;> decide

/-- C2: constructing a `FlareConfig` succeeds exactly for ports 1–65535,
and fails with `invalidConfig` exactly for port 0 or a port above 65535. -/
theorem mkFlareConfig_port_validation (p : Nat) :
    ((∃ c, mkFlareConfig p = Except.ok c) ↔ (1 ≤ p ∧ p ≤ 65535)) ∧
    ((mkFlareConfig p = Except.error ErrClass.invalidConfig) ↔
      (p = 0 ∨ 65535 < p)) := by
  unfold mkFlareConfig
  by_cases h : 1 ≤ p ∧ p ≤ 65535
  · rw [if_pos h]
    constructor
    · exact ⟨fun _ => h, fun _ => ⟨_, rfl⟩⟩
    · constructor
      · intro hc
        exact absurd hc (by simp)
      · omega
  · rw [if_neg h]
    constructor
    · constructor
      · rintro ⟨c, hc⟩
        exact absurd hc (by simp)
      · intro hp
        exact absurd hp h
    · constructor
      · intro _
        omega
      · intro _
        rfl

/-- C3: every error class in the taxonomy is a subclass of the single base
`cloudflaredError`, which the public API exposes as `CloudflaredError`,
with `downloadError` and `tunnelError` as its direct subclasses. -/
theorem error_taxonomy_subclass :
    (∀ e : ErrClass, SubclassOf e ErrClass.cloudflaredError) ∧
    errParent ErrClass.downloadError = some ErrClass.cloudflaredError ∧
    errParent ErrClass.tunnelError = some ErrClass.cloudflaredError := by
  refine ⟨?_, rfl, rfl⟩
  intro e
  cases e <;> first
    | exact SubclassOf.refl _
    | exact SubclassOf.step rfl (SubclassOf.refl _)
    | exact SubclassOf.step rfl (SubclassOf.step rfl (SubclassOf.refl _))

/-- Concrete witness for C2 at ports 8080, 0 and 65536. -/
theorem mkFlareConfig_port_validation_witness :
    (∃ c, mkFlareConfig 8080 = Except.ok c) ∧
    mkFlareConfig 0 = Except.error ErrClass.invalidConfig ∧
    mkFlareConfig 65536 = Except.error ErrClass.invalidConfig :=
  ⟨(mkFlareConfig_port_validation 8080).1.mpr (by decide),
   (mkFlareConfig_port_validation 0).2.mpr (by decide),
   (mkFlareConfig_port_validation 65536).2.mpr (by decide)⟩

/-- `watch` ignores a block of non-matching lines, pushing them onto the
captured buffer. -/
theorem watch_append_none (pre : List String) (captured rest : List String)
    (hpre : ∀ x ∈ pre, extractURL x = none) :
    watch captured (pre ++ rest) = watch (pre.reverse ++ captured) rest := by
  induction pre generalizing captured with
  | nil => simp
  | cons l ls ih =>
    have hl : extractURL l = none := hpre l (by simp)
    simp only [List.cons_append, watch, hl, List.append_eq]
    rw [ih (l :: captured) (fun x hx => hpre x (by simp [hx]))]
    simp [List.append_assoc]

/-- C1: on any stream whose first pattern-matching line is `l` (every line
before it fails the pattern), `watch` returns the URL contained in `l`,
ignoring the non-matching lines that precede it. -/
theorem watch_first_match (pre post : List String) (l u : String)
    (hpre : ∀ x ∈ pre, extractURL x = none)
    (hl : extractURL l = some u) :
    watch [] (pre ++ l :: post) = WatchResult.url u := by
  rw [watch_append_none pre [] (l :: post) hpre]
  simp [watch, hl]

/-- Concrete witness for C1: a preceding non-matching log line is skipped
and the provider URL is extracted from the announcement line. -/
theorem watch_first_match_witness :
    watch [] (["2024-01-01 INF Starting tunnel"] ++
        "Your quick tunnel has been created! Visit it: https://example.trycloudflare.com" :: []) =
      WatchResult.url "https://example.trycloudflare.com" :=
  watch_first_match ["2024-01-01 INF Starting tunnel"] []
    "Your quick tunnel has been created! Visit it: https://example.trycloudflare.com"
    "https://example.trycloudflare.com"
    (by decide) (by decide)

/-- C5: when the stream closes before any line matches, `watch` signals
`PrematureExit` carrying the captured output, and it does so on the very
read after the last line — `length + 1` loop iterations in total — rather
than after any timeout. -/
theorem watch_premature_exit (lines : List String)
    (h : ∀ x ∈ lines, extractURL x = none) :
    watch [] lines = WatchResult.prematureExit lines ∧
    watchSteps lines = lines.length + 1 := by
  constructor
  · have hw := watch_append_none lines [] [] h
    simp only [List.append_nil] at hw
    rw [hw]
    simp [watch]
  · induction lines with
    | nil => rfl
    | cons l ls ih =>
      have hl : extractURL l = none := h l (by simp)
      have ihs := ih (fun x hx => h x (by simp [hx]))
      simp [watchSteps, hl, ihs]
      omega

/-- Concrete witness for C5 on a one-line stream with no matching line. -/
theorem watch_premature_exit_witness :
    watch [] ["no url here"] = WatchResult.prematureExit ["no url here"] ∧
    watchSteps ["no url here"] = 2 :=
  watch_premature_exit ["no url here"] (by decide)

/-- C4: scoped acquisition always invokes `stop` on exit — the final handle
state is `stop` of the state the body left, whether the body returned
`Except.ok` or `Except.error` — so no subprocess of the handle remains
alive after exit. -/
theorem scopedRun_stops {ε α : Type} (s : HandleState)
    (body : HandleState → Except ε α × HandleState) :
    (scopedRun s body).2 = stop (body s).2 ∧
    ((scopedRun s body).2).procAlive = false :=
  ⟨rfl, by simp [scopedRun, stop]⟩

/-- C6: `terminate` is idempotent and a no-op (not an error) on an
already-stopped or never-started process, and `TunnelHandle.stop` applied
twice leaves the same final state as applying it once. -/
theorem terminate_stop_idempotent (p : SupervisedProcess) (s : HandleState) :
    terminate (terminate p) = terminate p ∧
    (p.state = ProcState.stopped → terminate p = p) ∧
    (p.state = ProcState.notStarted → terminate p = p) ∧
    stop (stop s) = stop s := by
  refine ⟨?_, ?_, ?_, ?_⟩
  · by_cases h : p.state = ProcState.running <;> simp [terminate, h]
  · intro h
    simp [terminate, h]
  · intro h
    simp [terminate, h]
  · simp [stop]

/-- Concrete witness for C6 at an already-stopped process. -/
theorem terminate_stop_idempotent_witness :
    terminate (terminate ⟨7, ProcState.stopped⟩) = terminate ⟨7, ProcState.stopped⟩ ∧
    terminate ⟨7, ProcState.stopped⟩ = ⟨7, ProcState.stopped⟩ ∧
    stop (stop initHandle) = stop initHandle :=
  ⟨(terminate_stop_idempotent ⟨7, ProcState.stopped⟩ initHandle).1,
   (terminate_stop_idempotent ⟨7, ProcState.stopped⟩ initHandle).2.1 rfl,
   (terminate_stop_idempotent ⟨7, ProcState.stopped⟩ initHandle).2.2.2⟩

/-- C7: `ensure` is idempotent — the second call with the same config
returns the same descriptor, leaves the state untouched (so it performs no
network I/O), and the two calls together download at most once. -/
theorem ensure_idempotent (cfg : ProvConfig) (s : ProvState) :
    (ensure cfg (ensure cfg s).2).1 = (ensure cfg s).1 ∧
    (ensure cfg (ensure cfg s).2).2 = (ensure cfg s).2 ∧
    (ensure cfg (ensure cfg s).2).2.downloads ≤ s.downloads + 1 := by
  unfold ensure
  cases hov : cfg.overridePath with
  | some p => simp
  | none =>
    cases hc : s.cache with
    | some d =>
      by_cases hd : d.platform = cfg.platform
      · simp [hc, hd]
      · simp [hc, hd]
    | none => simp [hc]

/-- Each handle operation preserves the auxiliary invariant. -/
theorem hinv_step {s t : HandleState} (hs : HInv s) (st : HStep s t) :
    HInv t := by
  obtain ⟨h1, h2, h3, h4⟩ := hs
  cases st with
  | beginStart h => exact ⟨h1, by simp, h3, h4⟩
  | spawnOk h => exact ⟨h1, by simp, by simp, h4⟩
  | spawnFail h => exact ⟨h1, by simp, h3, h4⟩
  | matchSignal u h h0 =>
    refine ⟨by simp [h0], fun hr => by simpa using h2 (by simpa using hr), ?_, by simp [h0]⟩
    intro _
    simpa using h2 h
  | procExit h => exact ⟨h1, by simp, h3, h4⟩
  | doStop => exact ⟨h1, by simp [stop], h3, h4⟩

/-- Every reachable handle state satisfies the auxiliary invariant. -/
theorem hinv_reachable {s : HandleState} (h : HReachable s) : HInv s := by
  induction h with
  | start => exact ⟨by simp [initHandle], by simp [initHandle],
      by simp [initHandle], by simp [initHandle]⟩
  | next _ st ih => exact hinv_step ih st

/-- No operation leaves the `stopped` phase. -/
theorem stopped_absorbing {s t : HandleState} (hs : s.phase = Phase.stopped)
    (st : HStep s t) : t.phase = Phase.stopped := by
  cases st <;> simp_all [stop]

/-- C8: in every reachable handle state, a readable URL implies the process
reached `Running` and the readiness signal matched exactly once; and once
the phase is `stopped`, no operation leads back to any other phase — a
fresh handle is required. -/
theorem handle_state_invariant (s : HandleState) (h : HReachable s) :
    (∀ u, s.url = some u → s.everRan = true ∧ s.matchCount = 1) ∧
    (∀ t, s.phase = Phase.stopped → HStep s t → t.phase = Phase.stopped) := by
  have hi := hinv_reachable h
  constructor
  · intro u hu
    have h1 : s.matchCount = 1 := hi.1 (by simp [hu])
    exact ⟨hi.2.2.1 h1, h1⟩
  · intro t hs st
    exact stopped_absorbing hs st

/-- Concrete witness for C8 at a reachable state that has matched a URL:
fresh handle → starting → running → readiness matched. -/
theorem handle_state_invariant_witness :
    (∀ u, matchedState.url = some u →
      matchedState.everRan = true ∧ matchedState.matchCount = 1) ∧
    (∀ t, matchedState.phase = Phase.stopped → HStep matchedState t →
      t.phase = Phase.stopped) :=
  handle_state_invariant matchedState
    (HReachable.next
      (HReachable.next
        (HReachable.next HReachable.start (HStep.beginStart initHandle rfl))
        (HStep.spawnOk _ rfl))
      (HStep.matchSignal _ "https://demo.trycloudflare.com" rfl rfl))

end Flaredantic
